import Mathlib

/-!
Shallow embedding of `src/script.py`, a cross-chain bridge event listener.
The embedded parts are the ones the verified claims are about:
`EventScanner._get_scan_range` (range planning), `EventScanner.scan`
(the generator producing events and advancing the cursor),
`BridgeOrchestrator._process_event` (dedup and delivery tracking), and
`CrossChainRelayer.relay_event_data` (payload construction).
External collaborators (the RPC node and the destination API) appear as
explicit parameters: the height query result, the log fetch result, and
the delivery result, each `Option`/`Bool` valued where the call can fail.
-/

namespace Bridge

/-- Decoded `TokensLocked` log arguments `args:{from, to, amount,
destinationChainId}`.  `from`/`to` are Lean keywords, so the fields are
named `args_from`/`args_to`. -/
structure EventArgs where
  args_from : String
  args_to : String
  amount : Int
  destinationChainId : Int
  deriving DecidableEq, Repr

/-- A decoded log record as produced by the Ledger Client
(`transactionHash` already in hex-string form, as `_process_event` uses it). -/
structure BridgeEvent where
  transactionHash : String
  blockNumber : Int
  args : EventArgs
  deriving DecidableEq, Repr

/-- A concrete decoded event, used to instantiate universally quantified
statements. -/
def sampleEventA : BridgeEvent :=
  ⟨"0x1111", 101, ⟨"0xaa1", "0xbb1", 5, 137⟩⟩

/-- A second concrete decoded event with a distinct hash. -/
def sampleEventB : BridgeEvent :=
  ⟨"0x2222", 102, ⟨"0xaa2", "0xbb2", 9, 137⟩⟩

/-- The mutable state of `EventScanner`: the cursor `last_scanned_block`
and the configured confirmation depth. -/
structure ScannerState where
  last_scanned_block : Int
  confirmations : Int
  deriving DecidableEq, Repr

/-- `EventScanner._get_scan_range`.  `latest` is the result of
`get_latest_block_number` (`none` when the call raises, matching the
`try/except` that returns `None`).  Python integers are unbounded, so the
arithmetic is on `Int`.  The in-place reassignment
`to_block = from_block + 4999` (applied when `to_block - from_block > 5000`)
is embedded as the middle branch. -/
def get_scan_range (st : ScannerState) (latest : Option Int) : Option (Int × Int) :=
  match latest with
  | none => none
  | some latest_block =>
    let from_block := st.last_scanned_block + 1
    let to_block := latest_block - st.confirmations
    if from_block > to_block then
      none
    else if to_block - from_block > 5000 then
      some (from_block, from_block + 4999)
    else
      some (from_block, to_block)

/-- One observable step of the `scan` generator body: an event produced at a
`yield`, or the final cursor assignment `self.last_scanned_block = to_block`. -/
inductive ScanAction where
  | yieldEvent : BridgeEvent → ScanAction
  | setCursor : Int → ScanAction
  deriving DecidableEq, Repr

/-- `EventScanner.scan` as the sequence of observable actions its body would
perform if run to completion.  `logs` is the `get_logs` result (`none` when
the call raises; the surrounding `except` swallows the error, so nothing is
yielded and the cursor assignment is never reached).  On success every log is
yielded in order and the cursor assignment comes strictly last. -/
def scanTrace (st : ScannerState) (latest : Option Int)
    (logs : Option (List BridgeEvent)) : List ScanAction :=
  match get_scan_range st latest with
  | none => []
  | some (_, to_block) =>
    match logs with
    | none => []
    | some evs => evs.map ScanAction.yieldEvent ++ [ScanAction.setCursor to_block]

/-- Generator semantics, consumer iterating to exhaustion: every action of the
trace executes.  Returns the events received by the consumer and the final
cursor value, starting from cursor `cur`. -/
def runToEnd : List ScanAction → Int → List BridgeEvent × Int
  | [], cur => ([], cur)
  | ScanAction.setCursor c :: rest, _ => runToEnd rest c
  | ScanAction.yieldEvent e :: rest, cur =>
    let r := runToEnd rest cur
    (e :: r.1, r.2)

/-- Generator semantics, consumer that takes at most `budget` yielded items and
then closes the generator (as when an exception in the `for` body escapes to
the orchestrator loop): execution stops at the suspension point of the last
consumed `yield`, so actions after it never run. -/
def runClosed : Nat → List ScanAction → Int → List BridgeEvent × Int
  | _, [], cur => ([], cur)
  | 0, _, cur => ([], cur)
  | Nat.succ b, ScanAction.setCursor c :: rest, _ => runClosed (Nat.succ b) rest c
  | Nat.succ b, ScanAction.yieldEvent e :: rest, cur =>
    let r := runClosed b rest cur
    (e :: r.1, r.2)

/-- One orchestrator cycle from the scanner's point of view, with a successful
log fetch returning `logs` and the consumer iterating to exhaustion: the
scanner state after `scan` has run. -/
def cycle (st : ScannerState) (latest : Int) (logs : List BridgeEvent) : ScannerState :=
  { st with
    last_scanned_block :=
      (runToEnd (scanTrace st (some latest) (some logs)) st.last_scanned_block).2 }

/-- The three possible outcomes of processing one event, per the spec's
Delivery Tracker contract; in the code they are the three control paths of
`_process_event`. -/
inductive Outcome where
  | Delivered
  | AlreadyProcessed
  | Failed
  deriving DecidableEq, Repr

/-- `BridgeOrchestrator._process_event` on a single event.  `processed_txs` is
the dedup set (a list with membership semantics), `tx_hash` the event's
transaction hash, and `relay_ok` the result `relay_event_data` would return
for this invocation (the external Delivery Client outcome).  Returns the
outcome, the new set, and the number of network calls made (invocations of
`relay_event_data`). -/
def process_event (processed_txs : List String) (tx_hash : String)
    (relay_ok : Bool) : Outcome × List String × Nat :=
  if tx_hash ∈ processed_txs then
    (Outcome.AlreadyProcessed, processed_txs, 0)
  else if relay_ok then
    (Outcome.Delivered, tx_hash :: processed_txs, 1)
  else
    (Outcome.Failed, processed_txs, 1)

/-- The orchestrator loop's per-cycle body: process a sequence of events, each
given as its hash paired with the Delivery Client result its attempt would
get, threading the dedup set.  Returns the outcome of every invocation (paired
with its hash) and the final set. -/
def process_all (processed_txs : List String) :
    List (String × Bool) → List (String × Outcome) × List String
  | [] => ([], processed_txs)
  | (h, r) :: rest =>
    let step := process_event processed_txs h r
    let next := process_all step.2.1 rest
    ((h, step.1) :: next.1, next.2)

/-- Number of invocations recorded in `outs` that returned `Delivered` for
hash `h`. -/
def delivered_count (h : String) (outs : List (String × Outcome)) : Nat :=
  outs.countP (fun p => decide (p.1 = h ∧ p.2 = Outcome.Delivered))

/-- A JSON leaf value: the wire-format claims turn on whether `amount` is a
JSON number or a JSON string, so the distinction is kept explicit. -/
inductive JsonValue where
  | str : String → JsonValue
  | num : Int → JsonValue
  deriving DecidableEq, Repr

/-- The nested `payload` object of the wire unit. -/
structure InnerPayload where
  sender : String
  recipient : String
  amount : JsonValue
  destination_chain_id : Int
  deriving DecidableEq, Repr

/-- The wire unit sent to the destination API. -/
structure RelayPayload where
  source_tx_hash : String
  source_chain_id : Int
  event_type : String
  payload : InnerPayload
  deriving DecidableEq, Repr

/-- The `event_data` dictionary built by `_process_event` before calling the
relayer: the event's args, its hash in hex-string form, and the chain id. -/
structure EventData where
  transactionHash : String
  chainId : Int
  args : EventArgs
  deriving DecidableEq, Repr

/-- `_process_event`'s construction of `event_data_dict` from an event and the
connected chain's id. -/
def event_data_of (event : BridgeEvent) (chainId : Int) : EventData :=
  { transactionHash := event.transactionHash
    chainId := chainId
    args := event.args }

/-- `CrossChainRelayer.relay_event_data`, payload construction: the code puts
`event_data['args']['amount']` (a Python int) into the payload unconverted, so
`json.dumps` serializes it as a JSON number. -/
def relay_payload (event_data : EventData) : RelayPayload :=
  { source_tx_hash := event_data.transactionHash
    source_chain_id := event_data.chainId
    event_type := "TokensLocked"
    payload :=
      { sender := event_data.args.args_from
        recipient := event_data.args.args_to
        amount := JsonValue.num event_data.args.amount
        destination_chain_id := event_data.args.destinationChainId } }

/-- The payload exactly as the claim words it, with `amount` as an
integer-as-string; declared separately so the claim can be compared with the
code's `relay_payload`. -/
def claimed_payload (event_data : EventData) : RelayPayload :=
  { source_tx_hash := event_data.transactionHash
    source_chain_id := event_data.chainId
    event_type := "TokensLocked"
    payload :=
      { sender := event_data.args.args_from
        recipient := event_data.args.args_to
        amount := JsonValue.str (toString event_data.args.amount)
        destination_chain_id := event_data.args.destinationChainId } }

/-- The claim's payload amended to carry `amount` as a JSON integer, which is
what the code sends. -/
def amended_payload (event_data : EventData) : RelayPayload :=
  { source_tx_hash := event_data.transactionHash
    source_chain_id := event_data.chainId
    event_type := "TokensLocked"
    payload :=
      { sender := event_data.args.args_from
        recipient := event_data.args.args_to
        amount := JsonValue.num event_data.args.amount
        destination_chain_id := event_data.args.destinationChainId } }

/-! ### Helper lemmas: the dedup set and delivery outcomes -/

lemma delivered_count_cons (h t : String) (o : Outcome) (rest : List (String × Outcome)) :
    delivered_count h ((t, o) :: rest)
      = delivered_count h rest + (if t = h ∧ o = Outcome.Delivered then 1 else 0) := by
  simp [delivered_count, List.countP_cons]

lemma mem_process_all_set (evs : List (String × Bool)) (s : List String) (h : String)
    (hm : h ∈ s) : h ∈ (process_all s evs).2 := by
  induction evs generalizing s with
  | nil => simpa [process_all] using hm
  | cons e rest ih =>
    obtain ⟨t, r⟩ := e
    simp only [process_all, process_event]
    split_ifs with h1 h2
    · exact ih s hm
    · exact ih (t :: s) (List.mem_cons_of_mem _ hm)
    · exact ih s hm

lemma delivered_count_zero_of_mem (evs : List (String × Bool)) (s : List String)
    (h : String) (hm : h ∈ s) : delivered_count h (process_all s evs).1 = 0 := by
  induction evs generalizing s with
  | nil => rfl
  | cons e rest ih =>
    obtain ⟨t, r⟩ := e
    simp only [process_all, process_event]
    split_ifs with h1 h2
    · rw [delivered_count_cons, ih s hm]
      simp
    · have hne : ¬(t = h) := fun he => h1 (he ▸ hm)
      rw [delivered_count_cons, ih (t :: s) (List.mem_cons_of_mem _ hm)]
      simp [hne]
    · have hne : ¬(t = h) := fun he => h1 (he ▸ hm)
      rw [delivered_count_cons, ih s hm]
      simp [hne]

lemma delivered_count_le_one (evs : List (String × Bool)) (s : List String)
    (h : String) : delivered_count h (process_all s evs).1 ≤ 1 := by
  induction evs generalizing s with
  | nil => simp [process_all, delivered_count]
  | cons e rest ih =>
    obtain ⟨t, r⟩ := e
    simp only [process_all, process_event]
    split_ifs with h1 h2
    · rw [delivered_count_cons]
      simpa using ih s
    · by_cases hth : t = h
      · subst hth
        rw [delivered_count_cons,
          delivered_count_zero_of_mem rest (t :: s) t (List.mem_cons_self _ _)]
        simp
      · rw [delivered_count_cons]
        simpa [hth] using ih (t :: s)
    · rw [delivered_count_cons]
      simpa using ih s

lemma mem_set_iff_delivered (evs : List (String × Bool)) (s : List String) (h : String) :
    h ∈ (process_all s evs).2 ↔ h ∈ s ∨ 0 < delivered_count h (process_all s evs).1 := by
  induction evs generalizing s with
  | nil => simp [process_all, delivered_count]
  | cons e rest ih =>
    obtain ⟨t, r⟩ := e
    simp only [process_all, process_event]
    split_ifs with h1 h2
    · rw [delivered_count_cons]
      simpa using ih s
    · rw [delivered_count_cons]
      by_cases hth : t = h
      · subst hth
        have hmem := mem_process_all_set rest (t :: s) t (List.mem_cons_self _ _)
        simp [hmem]
      · rw [ih (t :: s)]
        simp [hth, List.mem_cons]
        tauto
    · rw [delivered_count_cons]
      simpa using ih s

/-! ### Delivery Tracker claims -/

/-- C1: over any sequence of events handled by `_process_event` in one process
lifetime (the dedup set starts empty), at most one invocation per
`sourceTxHash` returns a successful delivery: once a delivery for a hash has
succeeded, every later event bearing the same hash is skipped without another
success. -/
theorem c1_at_most_one_delivered (evs : List (String × Bool)) (h : String) :
    delivered_count h (process_all [] evs).1 ≤ 1 :=
  delivered_count_le_one evs [] h

/-- C4: after any sequence of events processed from an empty dedup set, a hash
is a member of `processed_txs` iff some delivery attempt for it returned
success; and a failed delivery never mutates the set, leaving the event
eligible for retry. -/
theorem c4_processed_iff_delivered (evs : List (String × Bool)) (h : String) :
    (h ∈ (process_all [] evs).2 ↔ 0 < delivered_count h (process_all [] evs).1)
    ∧ ∀ (s : List String) (t : String), (process_event s t false).2.1 = s := by
  constructor
  · simpa using mem_set_iff_delivered evs [] h
  · intro s t
    by_cases hm : t ∈ s <;> simp [process_event, hm]

/-- C5: processing an event whose hash is already in `processed_txs` is an
idempotent no-op: it returns the already-processed outcome, makes zero network
calls, and leaves the set unchanged — whatever the Delivery Client would have
answered. -/
theorem c5_already_processed_noop (s : List String) (h : String) (r : Bool)
    (hm : h ∈ s) : process_event s h r = (Outcome.AlreadyProcessed, s, 0) := by
  simp [process_event, hm]

/-- Witness for C5 at a concrete dedup set and hash. -/
theorem c5_already_processed_noop_witness :
    "0xabc" ∈ ["0xabc", "0xdef"]
    ∧ process_event ["0xabc", "0xdef"] "0xabc" true
        = (Outcome.AlreadyProcessed, ["0xabc", "0xdef"], 0) :=
  ⟨by decide, c5_already_processed_noop ["0xabc", "0xdef"] "0xabc" true (by decide)⟩

/-! ### Helper lemmas: range planning and generator semantics -/

lemma get_scan_range_none (st : ScannerState) (h : Int)
    (hgt : st.last_scanned_block + 1 > h - st.confirmations) :
    get_scan_range st (some h) = none := by
  simp [get_scan_range, hgt]

lemma get_scan_range_clip (st : ScannerState) (h : Int)
    (h1 : ¬ st.last_scanned_block + 1 > h - st.confirmations)
    (h2 : h - st.confirmations - (st.last_scanned_block + 1) > 5000) :
    get_scan_range st (some h)
      = some (st.last_scanned_block + 1, st.last_scanned_block + 1 + 4999) := by
  simp [get_scan_range, h1, h2]

lemma get_scan_range_noclip (st : ScannerState) (h : Int)
    (h1 : ¬ st.last_scanned_block + 1 > h - st.confirmations)
    (h2 : ¬ h - st.confirmations - (st.last_scanned_block + 1) > 5000) :
    get_scan_range st (some h)
      = some (st.last_scanned_block + 1, h - st.confirmations) := by
  simp [get_scan_range, h1, h2]

lemma scanTrace_of_range (st : ScannerState) (h f t : Int) (evs : List BridgeEvent)
    (hr : get_scan_range st (some h) = some (f, t)) :
    scanTrace st (some h) (some evs)
      = evs.map ScanAction.yieldEvent ++ [ScanAction.setCursor t] := by
  simp [scanTrace, hr]

lemma scanTrace_logs_fail (st : ScannerState) (latest : Option Int) :
    scanTrace st latest none = [] := by
  unfold scanTrace
  rcases get_scan_range st latest with _ | ⟨f, t⟩ <;> rfl

lemma runToEnd_yields (evs : List BridgeEvent) (t cur : Int) :
    runToEnd (evs.map ScanAction.yieldEvent ++ [ScanAction.setCursor t]) cur
      = (evs, t) := by
  induction evs with
  | nil => rfl
  | cons e rest ih => simp [runToEnd, ih]

lemma runClosed_zero (l : List ScanAction) (cur : Int) :
    runClosed 0 l cur = ([], cur) := by
  cases l <;> rfl

lemma runClosed_yields (evs : List BridgeEvent) (tail : List ScanAction)
    (k : Nat) (cur : Int) (hk : k ≤ evs.length) :
    runClosed k (evs.map ScanAction.yieldEvent ++ tail) cur = (evs.take k, cur) := by
  induction evs generalizing k with
  | nil =>
    have : k = 0 := Nat.le_zero.mp hk
    subst this
    simpa using runClosed_zero tail cur
  | cons e rest ih =>
    cases k with
    | zero => simpa using runClosed_zero (ScanAction.yieldEvent e :: (rest.map ScanAction.yieldEvent ++ tail)) cur
    | succ b =>
      simp [runClosed, ih b (Nat.le_of_succ_le_succ hk)]

lemma cycle_of_range (st : ScannerState) (h f t : Int) (logs : List BridgeEvent)
    (hr : get_scan_range st (some h) = some (f, t)) :
    cycle st h logs = ⟨t, st.confirmations⟩ := by
  simp [cycle, scanTrace_of_range st h f t logs hr, runToEnd_yields]

/-! ### Range Planner and Event Scanner claims -/

/-- C2 counterexample: with `lastScanned = 0`, `confirmations = 0`,
`height = 5001` the planner returns the window `(1, 5001)`, which contains
`5001` blocks — the clipping branch fires only when `to - from > 5000`, so the
claimed bound `to - from + 1 ≤ 5000` fails. -/
theorem c2_counterexample :
    get_scan_range ⟨0, 0⟩ (some 5001) = some (1, 5001)
    ∧ ¬((5001 : Int) - 1 + 1 ≤ 5000) := by
  constructor
  · decide
  · decide

/-- C2 amended: whenever the Range Planner returns a window, it satisfies
`from = lastScanned + 1`, `to ≤ height - confirmations`, and
`to - from + 1 ≤ 5001` (not `5000`: the code clips only when
`to - from > 5000`, so an unclipped window may contain `5001` blocks). -/
theorem c2_window_bounds (st : ScannerState) (h f t : Int)
    (hr : get_scan_range st (some h) = some (f, t)) :
    f = st.last_scanned_block + 1 ∧ t ≤ h - st.confirmations ∧ t - f + 1 ≤ 5001 := by
  by_cases h1 : st.last_scanned_block + 1 > h - st.confirmations
  · rw [get_scan_range_none st h h1] at hr
    exact absurd hr (by simp)
  · by_cases h2 : h - st.confirmations - (st.last_scanned_block + 1) > 5000
    · rw [get_scan_range_clip st h h1 h2] at hr
      obtain ⟨hf, ht⟩ := Prod.mk.injEq .. ▸ Option.some.injEq .. ▸ hr
      constructor
      · omega
      constructor <;> omega
    · rw [get_scan_range_noclip st h h1 h2] at hr
      obtain ⟨hf, ht⟩ := Prod.mk.injEq .. ▸ Option.some.injEq .. ▸ hr
      constructor
      · omega
      constructor <;> omega

/-- Witness for the amended C2 at the counterexample's input, where the bound
`5001` is attained. -/
theorem c2_window_bounds_witness :
    get_scan_range ⟨0, 0⟩ (some 5001) = some (1, 5001)
    ∧ ((1 : Int) = 0 + 1 ∧ (5001 : Int) ≤ 5001 - 0 ∧ (5001 : Int) - 1 + 1 ≤ 5001) :=
  ⟨by decide, c2_window_bounds ⟨0, 0⟩ 5001 1 5001 (by decide)⟩

/-- C3: when the planner yields a window `(f, t)` and the log fetch succeeds,
the generator body yields every returned event in order and performs the
cursor assignment `last_scanned_block = t` strictly after all yields; a
consumer iterating to exhaustion receives exactly the fetched events and
leaves the cursor at `t` — also when the log set is empty. -/
theorem c3_scan_yields_then_advances (st : ScannerState) (h f t : Int)
    (evs : List BridgeEvent) (hr : get_scan_range st (some h) = some (f, t)) :
    scanTrace st (some h) (some evs)
        = evs.map ScanAction.yieldEvent ++ [ScanAction.setCursor t]
    ∧ runToEnd (scanTrace st (some h) (some evs)) st.last_scanned_block = (evs, t) := by
  have htrace := scanTrace_of_range st h f t evs hr
  exact ⟨htrace, by rw [htrace]; exact runToEnd_yields evs t st.last_scanned_block⟩

/-- Witness for C3 on an empty log set: the cursor still advances to `t`. -/
theorem c3_scan_yields_then_advances_witness :
    get_scan_range ⟨99, 12⟩ (some 120) = some (100, 108)
    ∧ runToEnd (scanTrace ⟨99, 12⟩ (some 120) (some [])) 99 = ([], 108) :=
  ⟨by decide, (c3_scan_yields_then_advances ⟨99, 12⟩ 120 100 108 [] (by decide)).2⟩

/-- C7 counterexample: with a 10001-block backlog (`lastScanned = 0`,
`confirmations = 0`, `height = 10001`) the second planned window is
`(5001, 10001)` — width `5001`, because `to - from = 5000` does not trigger
the clip — and the third cycle plans no window at all, contradicting the
claimed three windows of widths `5000`, `5000`, `1`. -/
theorem c7_counterexample :
    cycle ⟨0, 0⟩ 10001 [] = ⟨5000, 0⟩
    ∧ get_scan_range ⟨5000, 0⟩ (some 10001) = some (5001, 10001)
    ∧ ((10001 : Int) - 5001 + 1 = 5001)
    ∧ get_scan_range ⟨10001, 0⟩ (some 10001) = none := by
  refine ⟨?_, by decide, by decide, by decide⟩
  exact cycle_of_range ⟨0, 0⟩ 10001 1 5000 [] (by decide)

/-- C7 amended: a backlog of exactly 10001 confirmed unscanned blocks at a
fixed ledger height is covered in exactly two consecutive windows, of widths
`5000` and `5001`, after which the planner returns nothing. -/
theorem c7_backlog_two_cycles (L c H : Int) (hb : H - c = L + 10001) :
    get_scan_range ⟨L, c⟩ (some H) = some (L + 1, L + 5000)
    ∧ cycle ⟨L, c⟩ H [] = ⟨L + 5000, c⟩
    ∧ get_scan_range ⟨L + 5000, c⟩ (some H) = some (L + 5001, L + 10001)
    ∧ cycle ⟨L + 5000, c⟩ H [] = ⟨L + 10001, c⟩
    ∧ get_scan_range ⟨L + 10001, c⟩ (some H) = none
    ∧ (L + 5000) - (L + 1) + 1 = 5000
    ∧ (L + 10001) - (L + 5001) + 1 = 5001 := by
  have h1 : get_scan_range ⟨L, c⟩ (some H) = some (L + 1, L + 5000) := by
    have hc := get_scan_range_clip ⟨L, c⟩ H (by simp; omega) (by simp; omega)
    simp only at hc
    rw [hc]
    congr 1
    rw [Prod.mk.injEq]
    constructor <;> omega
  have h2 : get_scan_range ⟨L + 5000, c⟩ (some H) = some (L + 5001, L + 10001) := by
    have := get_scan_range_noclip ⟨L + 5000, c⟩ H (by simp; omega) (by simp; omega)
    simp only at this
    rw [this]
    congr 1
    rw [Prod.mk.injEq]
    constructor <;> omega
  refine ⟨h1, cycle_of_range ⟨L, c⟩ H (L + 1) (L + 5000) [] h1, h2,
    cycle_of_range ⟨L + 5000, c⟩ H (L + 5001) (L + 10001) [] h2,
    get_scan_range_none ⟨L + 10001, c⟩ H (by simp; omega), by omega, by omega⟩

/-- Witness for the amended C7 at `L = 0`, `c = 0`, `H = 10001`. -/
theorem c7_backlog_two_cycles_witness :
    ((10001 : Int) - 0 = 0 + 10001)
    ∧ (get_scan_range ⟨0, 0⟩ (some 10001) = some (0 + 1, 0 + 5000)
      ∧ cycle ⟨0, 0⟩ 10001 [] = ⟨0 + 5000, 0⟩
      ∧ get_scan_range ⟨0 + 5000, 0⟩ (some 10001) = some (0 + 5001, 0 + 10001)
      ∧ cycle ⟨0 + 5000, 0⟩ 10001 [] = ⟨0 + 10001, 0⟩
      ∧ get_scan_range ⟨0 + 10001, 0⟩ (some 10001) = none
      ∧ ((0 : Int) + 5000) - (0 + 1) + 1 = 5000
      ∧ ((0 : Int) + 10001) - (0 + 5001) + 1 = 5001) :=
  ⟨by decide, c7_backlog_two_cycles 0 0 10001 (by decide)⟩

/-- C8: if the height query fails (`latest = none`) or the log fetch fails
(`logs = none`), the cycle yields no events and leaves the cursor unchanged;
with the cursor unchanged, the next cycle at the same reported height plans
exactly the window the failed cycle had planned. -/
theorem c8_error_leaves_state (st : ScannerState) (h : Int)
    (hr : Option Int) (lr : Option (List BridgeEvent)) :
    scanTrace st hr none = []
    ∧ scanTrace st none lr = []
    ∧ runToEnd (scanTrace st (some h) none) st.last_scanned_block
        = ([], st.last_scanned_block)
    ∧ get_scan_range
        ⟨(runToEnd (scanTrace st (some h) none) st.last_scanned_block).2,
          st.confirmations⟩ (some h)
        = get_scan_range st (some h) := by
  refine ⟨scanTrace_logs_fail st hr, rfl, ?_, ?_⟩
  · rw [scanTrace_logs_fail st (some h)]
    rfl
  · rw [scanTrace_logs_fail st (some h)]
    rfl

/-- C9: whenever `lastScanned + 1 > height - confirmations` the planner
returns nothing; it is a pure function of its inputs, so repeated calls with
unchanged inputs keep returning nothing. -/
theorem c9_returns_nothing (st : ScannerState) (h : Int)
    (hgt : st.last_scanned_block + 1 > h - st.confirmations) :
    get_scan_range st (some h) = none :=
  get_scan_range_none st h hgt

/-- Witness for C9 at the spec's Scenario B: `lastScanned = 99`,
`height = 120`, `confirmations = 25`. -/
theorem c9_returns_nothing_witness :
    ((99 : Int) + 1 > 120 - 25)
    ∧ get_scan_range ⟨99, 25⟩ (some 120) = none :=
  ⟨by decide, c9_returns_nothing ⟨99, 25⟩ 120 (by decide)⟩

/-- C10: the cursor assignment is the last action of the generator body, so a
consumer that closes the generator after taking `k ≤ |evs|` events (e.g. an
exception escaping the orchestrator's `for` body) receives the first `k`
events and never triggers the cursor assignment: `last_scanned_block` stays
put even though the fetch succeeded, and the same window is planned again. -/
theorem c10_abandoned_scan_keeps_cursor (st : ScannerState) (h f t : Int)
    (evs : List BridgeEvent) (k : Nat)
    (hr : get_scan_range st (some h) = some (f, t)) (hk : k ≤ evs.length) :
    runClosed k (scanTrace st (some h) (some evs)) st.last_scanned_block
        = (evs.take k, st.last_scanned_block)
    ∧ get_scan_range
        ⟨(runClosed k (scanTrace st (some h) (some evs)) st.last_scanned_block).2,
          st.confirmations⟩ (some h)
        = some (f, t) := by
  have hrun :
      runClosed k (scanTrace st (some h) (some evs)) st.last_scanned_block
        = (evs.take k, st.last_scanned_block) := by
    rw [scanTrace_of_range st h f t evs hr]
    exact runClosed_yields evs [ScanAction.setCursor t] k st.last_scanned_block hk
  refine ⟨hrun, ?_⟩
  rw [hrun]
  exact hr

/-- Witness for C10: the window `(100, 108)` is planned, the consumer takes
one of the two fetched events and closes; the cursor stays at `99` and the
same window is planned again. -/
theorem c10_abandoned_scan_keeps_cursor_witness :
    get_scan_range ⟨99, 12⟩ (some 120) = some (100, 108)
    ∧ (1 : Nat) ≤ [sampleEventA, sampleEventB].length
    ∧ (runClosed 1 (scanTrace ⟨99, 12⟩ (some 120) (some [sampleEventA, sampleEventB])) 99
          = ([sampleEventA, sampleEventB].take 1, 99)
      ∧ get_scan_range
          ⟨(runClosed 1 (scanTrace ⟨99, 12⟩ (some 120)
              (some [sampleEventA, sampleEventB])) 99).2, 12⟩ (some 120)
          = some (100, 108)) :=
  ⟨by decide, by decide,
    c10_abandoned_scan_keeps_cursor ⟨99, 12⟩ 120 100 108
      [sampleEventA, sampleEventB] 1 (by decide) (by decide)⟩

/-! ### Relay payload claims -/

/-- C6 counterexample: the claim's payload carries `amount` as an
integer-as-string, but `relay_event_data` puts the raw integer in; at a
concrete event the two objects differ. -/
theorem c6_counterexample :
    relay_payload (event_data_of ⟨"0xdead", 77, ⟨"0xaaa", "0xbbb", 5, 137⟩⟩ 1)
      ≠ claimed_payload (event_data_of ⟨"0xdead", 77, ⟨"0xaaa", "0xbbb", 5, 137⟩⟩ 1) := by
  decide

/-- C6 amended: the payload built and sent is exactly
`{source_tx_hash, source_chain_id, event_type: "TokensLocked",
payload: {sender, recipient, amount as integer, destination_chain_id}}`
with `sender = args.from` and `recipient = args.to`; `amount` is a JSON
number, not an integer-as-string. -/
theorem c6_payload_shape (event : BridgeEvent) (chainId : Int) :
    relay_payload (event_data_of event chainId) = amended_payload (event_data_of event chainId)
    ∧ (relay_payload (event_data_of event chainId)).source_tx_hash = event.transactionHash
    ∧ (relay_payload (event_data_of event chainId)).source_chain_id = chainId
    ∧ (relay_payload (event_data_of event chainId)).event_type = "TokensLocked"
    ∧ (relay_payload (event_data_of event chainId)).payload.sender = event.args.args_from
    ∧ (relay_payload (event_data_of event chainId)).payload.recipient = event.args.args_to
    ∧ (relay_payload (event_data_of event chainId)).payload.amount
        = JsonValue.num event.args.amount
    ∧ (relay_payload (event_data_of event chainId)).payload.destination_chain_id
        = event.args.destinationChainId :=
  ⟨rfl, rfl, rfl, rfl, rfl, rfl, rfl, rfl⟩

end Bridge
